import Mathlib

/-!
Verification of the rust-fetch HTTP convenience layer (src/src/lib.rs,
src/src/fetch_config.rs, src/src/fetch_response.rs).

The core pipeline of `lib.rs` is embedded shallowly: strings stay strings,
byte bodies are `List Nat`, header maps are string-keyed partial maps,
fallible Rust functions become `Except`, and the external codec and
transport collaborators are abstract parameters. Modules of the repository
that are not present under `src/` (`fetch_options.rs`, `error.rs`,
`network_error.rs`, `utils.rs`) are modelled from the specification and
marked as such in their doc comments.
-/

namespace RustFetch

/-- Body bytes, as `Vec<u8>` / `Bytes` in the source: a list of byte values. -/
abbrev Bytes := List Nat

/-- Header maps (`FetchHeaders = HashMap<String, String>` in `lib.rs`).
Modelled from the spec: header map storage is treated as an ordinary
string-keyed, string-valued mapping, so a map is a function from keys to
optional values. -/
def Headers : Type := String → Option String

/-- The empty header map (`HashMap::new`). -/
def hEmpty : Headers := fun _ => none

/-- `HashMap::insert`: bind `k` to `v`, replacing any previous value. -/
def hInsert (m : Headers) (k v : String) : Headers :=
  fun x => if x = k then some v else m x

/-- `HashMap::get`. -/
def hGet? (m : Headers) (k : String) : Option String := m k

/-- `HashMap::contains_key`. -/
def hContains (m : Headers) (k : String) : Bool := (m k).isSome

/-- Overlay every entry of `src` onto `dst`, replacing on key collision.
Modelled from the spec: this is reqwest's `RequestBuilder::headers`
per-key replacement (`utils.rs` and the transport are collaborators). -/
def hSetAll (dst src : Headers) : Headers :=
  fun x =>
    match src x with
    | some v => some v
    | none => dst x

/-- Modelled from the spec: `fetch_options.rs` is absent from `src/`.
Closed enumeration of supported content types: `Json`, `TextXml`,
`ApplicationXml`, `UrlEncoded`; the default is `Json`. -/
inductive ContentType where
  | Json
  | TextXml
  | ApplicationXml
  | UrlEncoded
deriving DecidableEq, Repr

/-- Modelled from the spec: canonical MIME string of each content type
(`ContentType`'s `Display`/`to_string` lives in the absent `fetch_options.rs`). -/
def ContentType.toStr : ContentType → String
  | .Json => "application/json"
  | .TextXml => "text/xml"
  | .ApplicationXml => "application/xml"
  | .UrlEncoded => "application/x-www-form-urlencoded"

/-- Modelled from the spec: `from_string` is a case-sensitive exact match
against the four canonical strings; no match falls back to `Json` rather
than failing (the source composes `from_str(..).ok().unwrap_or_default()`,
which has exactly this fallback shape, lib.rs line 290). -/
def ContentType.fromStr (s : String) : ContentType :=
  if s = "application/json" then .Json
  else if s = "text/xml" then .TextXml
  else if s = "application/xml" then .ApplicationXml
  else if s = "application/x-www-form-urlencoded" then .UrlEncoded
  else .Json

/-- Client configuration, from `src/src/fetch_config.rs`. -/
structure FetchConfig where
  timeout_ms : Option Nat
  headers : Option Headers
  accept : ContentType
  content_type : ContentType

/-- `#[derive(Default)]` for `FetchConfig`: both content types default to
`Json` (the `ContentType` default, modelled from the spec). -/
def FetchConfig.mkDefault : FetchConfig :=
  { timeout_ms := none, headers := none,
    accept := ContentType.Json, content_type := ContentType.Json }

/-- Modelled from the spec: `fetch_options.rs` is absent from `src/`.
Per-call options: optional header overrides, ordered query parameters,
optional per-call content-type/accept overrides, and the
`deserialize_body` flag. The spec requires parameter insertion order to be
preserved, so `params` is an ordered list of pairs. -/
structure FetchOptions where
  headers : Option Headers
  params : Option (List (String × String))
  content_type : Option ContentType
  accept : Option ContentType
  deserialize_body : Bool

/-- Modelled from the spec: the `FetchOptions` default has no overrides and
`deserialize_body = true`. -/
def FetchOptions.mkDefault : FetchOptions :=
  { headers := none, params := none, content_type := none,
    accept := none, deserialize_body := true }

/-- Modelled from the spec: the library's identifying user-agent string
(`concat!(CARGO_PKG_NAME, "/", CARGO_PKG_VERSION)`; the manifest is not in
`src/`, and no claim depends on the exact value). -/
def USER_AGENT : String := "rust-fetch"

/-- `Fetch::insert_default_headers` (lib.rs lines 93-105): always force
`user-agent`; force `content-type` and `accept` only when a configuration
reference is supplied. -/
def insert_default_headers (headers : Headers) (config : Option FetchConfig) : Headers :=
  let headers := hInsert headers "user-agent" USER_AGENT
  match config with
  | some config =>
      let headers := hInsert headers "content-type" config.content_type.toStr
      hInsert headers "accept" config.accept.toStr
  | none => headers

/-- The header mapping built by `impl Default for Fetch` (lib.rs lines 33-50):
it starts from an empty map and calls `insert_default_headers` with
`Default::default()` for the `Option<&FetchConfig>` argument, which is `None`. -/
def defaultFetchHeaders : Headers :=
  insert_default_headers hEmpty none

/-- The default header mapping established by `Fetch::new` (lib.rs lines
62-91): absent caller options are replaced by the default configuration,
the configuration's own headers (or empty) are taken as the base, and
`insert_default_headers` runs with that configuration present. -/
def newHeaders (options : Option FetchConfig) : Headers :=
  let options := options.getD FetchConfig.mkDefault
  let headers := options.headers.getD hEmpty
  insert_default_headers headers (some options)

/-- Last character of a string, as the source's
`chars().nth(chars().count() - 1)` (for the empty string the release-mode
wrapped index yields `None`, as `getLast?` does). -/
def strLast? (s : String) : Option Char := s.data.getLast?

/-- First character of a string, as the source's `chars().nth(0)`. -/
def strFirst? (s : String) : Option Char := s.data.head?

/-- The query-string loop of `build_url` (lib.rs lines 146-160), rendered
recursively: every pair is written `key=value`, and `&` follows every pair
except the last. -/
def buildParamsAux : List (String × String) → String
  | [] => ""
  | [(k, v)] => k ++ "=" ++ v
  | (k, v) :: rest => k ++ "=" ++ v ++ "&" ++ buildParamsAux rest

/-- Query suffix produced by `build_url`: empty for an empty parameter list
(the `added_param` flag never fires), otherwise `?` followed by the joined
pairs. -/
def buildParams (params : List (String × String)) : String :=
  match params with
  | [] => ""
  | _ => "?" ++ buildParamsAux params

/-- `Fetch::build_url` (lib.rs lines 135-167) up to the final `Url` parse:
start from the base, insert `/` only when the base does not end with `/`
and the endpoint does not start with `/`, append the endpoint, then the
query suffix. `none` for `params` models absent options/params. -/
def buildUrlString (base endpoint : String) (params : Option (List (String × String))) : String :=
  let built := base
  let built :=
    if strLast? built ≠ some '/' ∧ strFirst? endpoint ≠ some '/' then built ++ "/"
    else built
  let built := built ++ endpoint
  built ++ buildParams (params.getD [])

/-- Modelled from the spec, for comparison with `buildUrlString`: the join
the spec describes, with exactly one `/` at the join point — a trailing
slash of the base and a leading slash of the path are collapsed into the
single separator. -/
def specJoin (base endpoint : String) : String :=
  let b := if strLast? base = some '/' then String.mk base.data.dropLast else base
  let e := if strFirst? endpoint = some '/' then String.mk endpoint.data.tail else endpoint
  b ++ "/" ++ e

/-- Modelled from the spec: `error.rs` is absent from `src/`. Serialization
failures are tagged with the originating codec; the codec diagnostic is
kept as a string. -/
inductive SerializationError where
  | Json (msg : String)
  | Xml (msg : String)
  | UrlEncoded (msg : String)
deriving DecidableEq, Repr

/-- Modelled from the spec: `error.rs` is absent from `src/`.
Deserialization failures are tagged with the originating codec; `Unknown`
carries a message and is the variant `lib.rs` uses for non-UTF-8 bytes on
the XML path (the spec calls that condition `InvalidEncoding`). -/
inductive DeserializationError where
  | Json (msg : String)
  | Xml (msg : String)
  | UrlEncoded (msg : String)
  | Unknown (msg : String)
deriving DecidableEq, Repr

/-- Modelled from the spec: `network_error.rs` is absent from `src/`. A
`NetworkError` captures the failing response's status, headers, and
best-effort body (kept here as the optionally-read raw bytes). -/
structure NetworkError where
  status : Nat
  headers : Headers
  body : Option Bytes

/-- Modelled from the spec: `error.rs` is absent from `src/`. The error
taxonomy visible in `lib.rs`. -/
inductive FetchError where
  | InvalidUrl (s : String)
  | SerializationErr (e : SerializationError)
  | DeserializationErr (e : DeserializationError)
  | UnableToSendRequest
  | NetworkErr (e : NetworkError)
  | Unknown

/-- The serialization codec collaborators for one outgoing value: the
result of encoding that value under each supported codec
(serde_json / serde_xml_rs / serde_urlencoded in the source). -/
structure Serializers where
  json : Except String Bytes
  xml : Except String Bytes
  urlencoded : Except String Bytes

/-- The content-type resolution inside `Fetch::make_body` (lib.rs lines
177-191): start from the default (`Json`), take the call-level override if
present, otherwise the client-level configured value if present. -/
def resolveContentType (config : Option FetchConfig) (options : Option FetchOptions) :
    ContentType :=
  match options with
  | some opts =>
      match opts.content_type with
      | some c_type => c_type
      | none =>
          match config with
          | some config => config.content_type
          | none => ContentType.Json
  | none =>
      match config with
      | some config => config.content_type
      | none => ContentType.Json

/-- `Fetch::make_body` (lib.rs lines 169-205): resolve the content type,
dispatch to the matching codec, tag codec failures, and return the bytes
together with the content type used. -/
def make_body (config : Option FetchConfig) (options : Option FetchOptions)
    (ser : Serializers) : Except FetchError (Bytes × ContentType) :=
  let content_type := resolveContentType config options
  match content_type with
  | .Json =>
      match ser.json with
      | .ok bs => .ok (bs, content_type)
      | .error e => .error (.SerializationErr (.Json e))
  | .TextXml | .ApplicationXml =>
      match ser.xml with
      | .ok bs => .ok (bs, content_type)
      | .error e => .error (.SerializationErr (.Xml e))
  | .UrlEncoded =>
      match ser.urlencoded with
      | .ok bs => .ok (bs, content_type)
      | .error e => .error (.SerializationErr (.UrlEncoded e))

/-- The request under construction (reqwest's `RequestBuilder`, abstracted
to the request headers and optional body bytes). -/
structure RequestBuilder where
  headers : Headers
  body : Option Bytes

/-- `Fetch::build_request` (lib.rs lines 207-234): overlay call-level
headers, then (when a body value is present) serialize it via `make_body`,
attach the bytes and force the `content-type` header to the content type
`make_body` used, and finally apply a call-level `accept` override.
`hasData` models `data.is_some()` — the codec results in `ser` stand for
the serialization of that value. -/
def build_request (config : Option FetchConfig) (hasData : Bool) (ser : Serializers)
    (options : Option FetchOptions) (original_builder : RequestBuilder) :
    Except FetchError RequestBuilder :=
  let builder := original_builder
  let builder :=
    match options with
    | some options =>
        match options.headers with
        | some headers => { builder with headers := hSetAll builder.headers headers }
        | none => builder
    | none => builder
  let afterBody : Except FetchError RequestBuilder :=
    if hasData then
      match make_body config options ser with
      | .error e => .error e
      | .ok (body, content_type) =>
          .ok { headers := hInsert builder.headers "content-type" content_type.toStr,
                body := some body }
    else .ok builder
  match afterBody with
  | .error e => .error e
  | .ok builder =>
      match options with
      | some opts =>
          match opts.accept with
          | some accept =>
              .ok { builder with headers := hInsert builder.headers "accept" accept.toStr }
          | none => .ok builder
      | none => .ok builder

/-- Modelled from the spec: the transport merges the client's default
headers into a request per key — a default applies only when the request
does not already carry that key. -/
def applyDefaultHeaders (defaults reqHeaders : Headers) : Headers :=
  fun k =>
    match reqHeaders k with
    | some v => some v
    | none => defaults k

/-- The header mapping of the request as sent by a client constructed with
`Fetch::new (base, config)`: the client's default headers (`newHeaders`)
filled in under the built request's own headers. -/
def wireHeaders (config : Option FetchConfig) (r : RequestBuilder) : Headers :=
  applyDefaultHeaders (newHeaders config) r.headers

/-- Whether a byte is a UTF-8 continuation byte (`0x80..=0xBF`). -/
def contByte (b : Nat) : Bool := 0x80 ≤ b && b ≤ 0xBF

/-- Strict UTF-8 decoding of a byte list, as Rust's `String::from_utf8`:
rejects truncated sequences, stray continuation bytes, overlong forms,
surrogate code points and values above `0x10FFFF`. -/
def utf8Decode? : List Nat → Option (List Char)
  | [] => some []
  | b :: rest =>
    if b < 0x80 then
      (utf8Decode? rest).map (fun cs => Char.ofNat b :: cs)
    else if 0xC2 ≤ b && b ≤ 0xDF then
      match rest with
      | b1 :: rest2 =>
          if contByte b1 then
            (utf8Decode? rest2).map
              (fun cs => Char.ofNat ((b - 0xC0) * 0x40 + (b1 - 0x80)) :: cs)
          else none
      | [] => none
    else if 0xE0 ≤ b && b ≤ 0xEF then
      match rest with
      | b1 :: b2 :: rest2 =>
          let lo1 := if b = 0xE0 then 0xA0 else 0x80
          let hi1 := if b = 0xED then 0x9F else 0xBF
          if (lo1 ≤ b1 && b1 ≤ hi1) && contByte b2 then
            (utf8Decode? rest2).map
              (fun cs =>
                Char.ofNat ((b - 0xE0) * 0x1000 + (b1 - 0x80) * 0x40 + (b2 - 0x80)) :: cs)
          else none
      | _ => none
    else if 0xF0 ≤ b && b ≤ 0xF4 then
      match rest with
      | b1 :: b2 :: b3 :: rest2 =>
          let lo1 := if b = 0xF0 then 0x90 else 0x80
          let hi1 := if b = 0xF4 then 0x8F else 0xBF
          if (lo1 ≤ b1 && b1 ≤ hi1) && contByte b2 && contByte b3 then
            (utf8Decode? rest2).map
              (fun cs =>
                Char.ofNat ((b - 0xF0) * 0x40000 + (b1 - 0x80) * 0x1000
                  + (b2 - 0x80) * 0x40 + (b3 - 0x80)) :: cs)
          else none
      | _ => none
    else none

/-- The deserialization codec collaborators for a target type `T`
(serde_json / serde_xml_rs / serde_urlencoded in the source; the XML codec
consumes decoded text). -/
structure Deserializers (T : Type) where
  json : Bytes → Except String T
  xml : String → Except String T
  urlencoded : Bytes → Except String T

/-- `Fetch::deserialize_response` (lib.rs lines 236-262): dispatch on the
content type; on the XML path first decode the bytes as UTF-8 and fail
with `DeserializationError::Unknown("Response body does not contain valid
Utf8")` when they are not valid UTF-8; tag codec failures with the codec. -/
def deserialize_response {T : Type} (de : Deserializers T) (raw_body : Bytes)
    (content_type : ContentType) : Except FetchError T :=
  match content_type with
  | .Json =>
      match de.json raw_body with
      | .ok v => .ok v
      | .error e => .error (.DeserializationErr (.Json e))
  | .TextXml | .ApplicationXml =>
      match utf8Decode? raw_body with
      | none =>
          .error (.DeserializationErr
            (.Unknown "Response body does not contain valid Utf8"))
      | some body_string =>
          match de.xml (String.mk body_string) with
          | .ok v => .ok v
          | .error e => .error (.DeserializationErr (.Xml e))
  | .UrlEncoded =>
      match de.urlencoded raw_body with
      | .ok v => .ok v
      | .error e => .error (.DeserializationErr (.UrlEncoded e))

/-- A transport response (reqwest's `Response`, abstracted): numeric
status, header mapping, the result of reading the full body bytes, and the
optional remote address. Header values are kept as strings (the spec
treats header storage as a string-valued mapping). -/
structure Response where
  status : Nat
  headers : Headers
  bytesResult : Except String Bytes
  remote_addr : Option String

/-- `StatusCode::is_client_error`: 400–499. -/
def isClientError (s : Nat) : Bool := 400 ≤ s && s ≤ 499

/-- `StatusCode::is_server_error`: 500–599. -/
def isServerError (s : Nat) : Bool := 500 ≤ s && s ≤ 599

/-- Modelled from the spec: `NetworkError::new` (in the absent
`network_error.rs`) captures the response's status, headers and
best-effort body. -/
def NetworkError.new (response : Response) : NetworkError :=
  { status := response.status, headers := response.headers,
    body := response.bytesResult.toOption }

/-- `Fetch::check_response_and_return_err` (lib.rs lines 264-269): fail
with a `NetworkError` on a client- or server-error status, otherwise pass
the response through unchanged. -/
def check_response_and_return_err (response : Response) : Except FetchError Response :=
  if isClientError response.status || isServerError response.status then
    .error (.NetworkErr (NetworkError.new response))
  else .ok response

/-- The structured response, from `src/src/fetch_response.rs`. -/
structure FetchResponse (T : Type) where
  body : Option T
  raw_body : Option Bytes
  status : Nat
  response_headers : Headers
  remote_address : Option String

/-- The content type the pipeline resolves for a response body: the
declared `content-type` header parsed with the fallback-to-`Json` rule,
or `Json` when no header is present (lib.rs lines 280-290 and 301-305). -/
def responseContentType (response : Response) : ContentType :=
  match (hGet? response.headers "content-type").map (fun s => ContentType.fromStr s) with
  | some c_type => c_type
  | none => ContentType.Json

/-- `Fetch::response_to_fetch_response` (lib.rs lines 271-316): classify
the status, resolve the remote content type, read the body bytes
(discarding a read failure via `.ok()`), deserialize when requested and
bytes are present, and assemble the structured response. -/
def response_to_fetch_response {T : Type} (de : Deserializers T)
    (response : Response) (deserialize_body : Bool) :
    Except FetchError (FetchResponse T) :=
  match check_response_and_return_err response with
  | .error e => .error e
  | .ok response =>
      let remote_content_type : Option ContentType :=
        (hGet? response.headers "content-type").map (fun s => ContentType.fromStr s)
      let headers := response.headers
      let remote_address := response.remote_addr
      let status := response.status
      let raw_body := response.bytesResult.toOption
      let bodyResult : Except FetchError (Option T) :=
        match raw_body with
        | some rb =>
            if deserialize_body then
              match remote_content_type with
              | some response_content_type =>
                  match deserialize_response de rb response_content_type with
                  | .ok v => .ok (some v)
                  | .error e => .error e
              | none =>
                  match deserialize_response de rb ContentType.Json with
                  | .ok v => .ok (some v)
                  | .error e => .error e
            else .ok none
        | none => .ok none
      match bodyResult with
      | .error e => .error e
      | .ok body =>
          .ok { body := body, raw_body := raw_body, status := status,
                response_headers := headers, remote_address := remote_address }

/-- Deserializers for `Unit` that accept every input; used to instantiate
theorems at concrete calls. -/
def unitDe : Deserializers Unit :=
  { json := fun _ => .ok (), xml := fun _ => .ok (), urlencoded := fun _ => .ok () }

/-- Serializers that produce an empty body under every codec; used to
instantiate theorems at concrete calls. -/
def emptySer : Serializers :=
  { json := .ok [], xml := .ok [], urlencoded := .ok [] }


theorem dropLast_append_of_getLast? {α : Type} : ∀ {l : List α} {c : α},
    l.getLast? = some c → l.dropLast ++ [c] = l := by
  intro l
  induction l with
  | nil => intro c h; simp at h
  | cons a t ih =>
      intro c h
      cases t with
      | nil => simp only [List.getLast?_singleton, Option.some.injEq] at h; simp [h]
      | cons b t2 =>
          have h' : (b :: t2).getLast? = some c := by
            rw [List.getLast?_cons_cons] at h; exact h
          simpa using ih h'

theorem cons_tail_of_head? {α : Type} {l : List α} {c : α}
    (h : l.head? = some c) : c :: l.tail = l := by
  cases l with
  | nil => simp at h
  | cons a t => simp only [List.head?_cons, Option.some.injEq] at h; simp [h]

theorem intercalate_go_append (s : String) : ∀ (l : List String) (a b : String),
    String.intercalate.go (a ++ b) s l = a ++ String.intercalate.go b s l := by
  intro l
  induction l with
  | nil => intro a b; rfl
  | cons x xs ih =>
      intro a b
      show String.intercalate.go (a ++ b ++ s ++ x) s xs = _
      have hx : a ++ b ++ s ++ x = a ++ (b ++ s ++ x) := by
        simp [String.append_assoc]
      rw [hx, ih]
      rfl

theorem intercalate_cons_cons (s a b : String) (l : List String) :
    String.intercalate s (a :: b :: l) = a ++ s ++ String.intercalate s (b :: l) := by
  show String.intercalate.go a s (b :: l) = _
  show String.intercalate.go (a ++ s ++ b) s l = _
  rw [show a ++ s ++ b = (a ++ s) ++ b from rfl, intercalate_go_append]
  rfl

theorem buildParamsAux_eq_intercalate : ∀ params : List (String × String),
    buildParamsAux params =
      String.intercalate "&" (params.map (fun p => p.1 ++ "=" ++ p.2)) := by
  intro params
  induction params with
  | nil => rfl
  | cons kv rest ih =>
      cases rest with
      | nil => rfl
      | cons kv2 rest2 =>
          obtain ⟨k, v⟩ := kv
          rw [List.map_cons, List.map_cons, intercalate_cons_cons]
          rw [List.map_cons] at ih
          rw [← ih]
          simp [buildParamsAux, String.append_assoc]

/-- C1 counterexample: with a base ending in `/` and a path starting with
`/`, `build_url` produces a double slash at the join point, not the single
slash the claim states. -/
theorem build_url_double_slash_cex :
    buildUrlString "http://h/" "/v1" none = "http://h//v1" ∧
      buildUrlString "http://h/" "/v1" none ≠ "http://h/v1" := by
  constructor
  · rfl
  · decide

/-- C1 (amended): whenever the base does not end in `/` or the path does
not start with `/`, `build_url` joins them with exactly one `/` at the
join point — it inserts the separator when neither side supplies one and
never omits it; only when both sides supply a slash does the join deviate
from the single-separator form (producing a double slash, see the
counterexample). -/
theorem build_url_join_amended (base ep : String)
    (h : ¬(strLast? base = some '/' ∧ strFirst? ep = some '/')) :
    buildUrlString base ep none = specJoin base ep := by
  by_cases hb : strLast? base = some '/'
  · have he : ¬ strFirst? ep = some '/' := fun he => h ⟨hb, he⟩
    have hc : ¬(strLast? base ≠ some '/' ∧ strFirst? ep ≠ some '/') := by tauto
    simp only [buildUrlString, specJoin, buildParams, Option.getD, if_neg hc, if_pos hb,
      if_neg he]
    apply String.ext
    have hd := dropLast_append_of_getLast? hb
    simp only [String.data_append]
    rw [← hd]
    simp [String.append_assoc]
  · by_cases he : strFirst? ep = some '/'
    · have hc : ¬(strLast? base ≠ some '/' ∧ strFirst? ep ≠ some '/') := by tauto
      simp only [buildUrlString, specJoin, buildParams, Option.getD, if_neg hc, if_neg hb,
        if_pos he]
      apply String.ext
      have hd := cons_tail_of_head? he
      simp only [String.data_append]
      rw [← hd]
      simp
    · have hc : strLast? base ≠ some '/' ∧ strFirst? ep ≠ some '/' := ⟨hb, he⟩
      simp only [buildUrlString, specJoin, buildParams, Option.getD, if_pos hc, if_neg hb,
        if_neg he]
      apply String.ext
      simp [String.append_assoc]

/-- C1 witness: the amended theorem applied at base `http://h` and path
`v1`. -/
theorem build_url_join_amended_witness :
    buildUrlString "http://h" "v1" none = specJoin "http://h" "v1" :=
  build_url_join_amended "http://h" "v1" (by decide)

/-- C8: query parameters appear in the built address in exactly the order
supplied, as `key=value` pairs joined with `&` after a single `?`, and an
empty parameter set appends nothing. -/
theorem build_url_params_order (base ep : String) (params : List (String × String)) :
    buildUrlString base ep (some params) =
      buildUrlString base ep none ++
        (if params.isEmpty then ""
         else "?" ++ String.intercalate "&" (params.map (fun p => p.1 ++ "=" ++ p.2))) := by
  cases params with
  | nil =>
      have h1 : buildUrlString base ep (some []) = buildUrlString base ep none := rfl
      simp [h1]
  | cons kv rest =>
      simp only [List.isEmpty_cons, if_neg]
      show _ ++ buildParams (kv :: rest) = _ ++ _ ++ _
      rw [show buildParams (kv :: rest) = "?" ++ buildParamsAux (kv :: rest) from rfl,
        buildParamsAux_eq_intercalate]
      simp [buildParams, String.append_assoc]


/-- C4 counterexample: the `impl Default for Fetch` path calls
`insert_default_headers` with an absent configuration, and the resulting
default header mapping lacks the forced `content-type` (and `accept`)
keys — only `user-agent` is present. -/
theorem default_headers_missing_forced_keys_cex :
    hContains defaultFetchHeaders "content-type" = false ∧
      hContains defaultFetchHeaders "accept" = false ∧
      hContains defaultFetchHeaders "user-agent" = true := by
  refine ⟨?_, ?_, ?_⟩ <;> rfl

/-- C4 (amended): whenever a configuration value is supplied to the merge,
the merged mapping contains all three forced keys `user-agent`,
`content-type` and `accept`, whatever the caller-supplied header map; in
particular every client built through `Fetch::new` — with or without a
caller configuration — has all three in its default headers. When the
configuration argument itself is absent (the `Default::default()` path of
`impl Default for Fetch`), only `user-agent` is forced. -/
theorem forced_headers_amended (m : Headers) (cfg : FetchConfig) (opts : Option FetchConfig) :
    hContains (insert_default_headers m (some cfg)) "user-agent" = true ∧
    hContains (insert_default_headers m (some cfg)) "content-type" = true ∧
    hContains (insert_default_headers m (some cfg)) "accept" = true ∧
    hContains (newHeaders opts) "user-agent" = true ∧
    hContains (newHeaders opts) "content-type" = true ∧
    hContains (newHeaders opts) "accept" = true ∧
    hContains (insert_default_headers m none) "user-agent" = true := by
  refine ⟨?_, ?_, ?_, ?_, ?_, ?_, ?_⟩ <;>
    simp [insert_default_headers, newHeaders, hInsert, hContains]

theorem make_body_content_type {config : Option FetchConfig} {options : Option FetchOptions}
    {ser : Serializers} {b : Bytes} {ct : ContentType}
    (h : make_body config options ser = .ok (b, ct)) :
    ct = resolveContentType config options := by
  unfold make_body at h
  cases hr : resolveContentType config options <;> rw [hr] at h
  case Json => cases hj : ser.json <;> rw [hj] at h <;> simp_all
  case TextXml => cases hj : ser.xml <;> rw [hj] at h <;> simp_all
  case ApplicationXml => cases hj : ser.xml <;> rw [hj] at h <;> simp_all
  case UrlEncoded => cases hj : ser.urlencoded <;> rw [hj] at h <;> simp_all

/-- C2: when a call attaches a body, the content type `make_body` used to
select the serializer is exactly the content type written into the built
request's `content-type` header. -/
theorem body_content_type_consistency (config : Option FetchConfig) (ser : Serializers)
    (options : Option FetchOptions) (original : RequestBuilder) (r : RequestBuilder)
    (h : build_request config true ser options original = .ok r) :
    hGet? r.headers "content-type" = some (resolveContentType config options).toStr ∧
    ∃ b, r.body = some b ∧
      make_body config options ser = .ok (b, resolveContentType config options) := by
  cases hm : make_body config options ser with
  | error e =>
      exfalso
      unfold build_request at h
      rw [hm] at h
      cases options with
      | none => simp at h
      | some opts =>
          cases opts.headers <;> cases opts.accept <;> simp at h
  | ok p =>
      obtain ⟨b, ct⟩ := p
      have hct : ct = resolveContentType config options := make_body_content_type hm
      subst hct
      unfold build_request at h
      rw [hm] at h
      cases options with
      | none =>
          simp at h
          subst h
          exact ⟨by simp [hGet?, hInsert], b, rfl, rfl⟩
      | some opts =>
          obtain ⟨ohs, opr, oct, oacc, odb⟩ := opts
          cases ohs <;> cases oacc <;>
            simp at h <;> subst h <;>
            exact ⟨by simp [hGet?, hInsert], b, rfl, rfl⟩

/-- The request produced by `build_request` at the concrete call of the C2
witness. -/
def reqC2 : RequestBuilder :=
  { headers := hInsert hEmpty "content-type" ContentType.Json.toStr, body := some [] }

/-- C2 witness: the consistency theorem applied at a concrete call with no
configuration, no options and the empty serializers. -/
theorem body_content_type_consistency_witness :
    hGet? reqC2.headers "content-type" = some (resolveContentType none none).toStr ∧
    ∃ b, reqC2.body = some b ∧
      make_body none none emptySer = .ok (b, resolveContentType none none) :=
  body_content_type_consistency none emptySer none { headers := hEmpty, body := none }
    reqC2 rfl


theorem newHeaders_accept (config : Option FetchConfig) :
    (newHeaders config) "accept" = some ((config.getD FetchConfig.mkDefault).accept).toStr := by
  cases config <;>
    simp [newHeaders, insert_default_headers, hInsert, Option.getD]

/-- C5: the content type used for serialization and the accept value of
the sent request are each resolved by the precedence call-level override →
client-level configured value → type default `Json` (the `accept`
precedence holds for requests whose call-level raw header map does not
itself smuggle in an `accept` entry, which is a separate channel from the
accept option). -/
theorem resolution_precedence (config : Option FetchConfig) (ser : Serializers)
    (options : Option FetchOptions) (hasData : Bool) (r : RequestBuilder)
    (hacc : ∀ hs, options.bind (fun o => o.headers) = some hs → hs "accept" = none)
    (hbuild : build_request config hasData ser options
      { headers := hEmpty, body := none } = .ok r) :
    resolveContentType config options =
      ((options.bind (fun o => o.content_type)).getD
        ((config.map (fun c => c.content_type)).getD ContentType.Json)) ∧
    hGet? (wireHeaders config r) "accept" =
      some (((options.bind (fun o => o.accept)).getD
        ((config.getD FetchConfig.mkDefault).accept)).toStr) := by
  constructor
  · cases options with
    | none => cases config <;> simp [resolveContentType]
    | some opts =>
        cases hoct : opts.content_type <;> cases config <;>
          simp [resolveContentType, hoct]
  · cases options with
    | none =>
        cases hasData with
        | false =>
            simp [build_request] at hbuild
            subst hbuild
            simp [wireHeaders, applyDefaultHeaders, hGet?, hEmpty, newHeaders_accept]
        | true =>
            cases hm : make_body config none ser with
            | error e => rw [build_request, hm] at hbuild; simp at hbuild
            | ok p =>
                obtain ⟨b, ct⟩ := p
                rw [build_request, hm] at hbuild
                simp at hbuild
                subst hbuild
                simp [wireHeaders, applyDefaultHeaders, hGet?, hEmpty, hInsert,
                  newHeaders_accept]
    | some opts =>
        obtain ⟨ohs, opr, oct, oacc, odb⟩ := opts
        have hacc' : ∀ hs, ohs = some hs → hs "accept" = none := fun hs h => hacc hs (by simp [h])
        cases hasData with
        | false =>
            cases ohs with
            | none =>
                cases oacc with
                | none =>
                    simp [build_request] at hbuild
                    subst hbuild
                    simp [wireHeaders, applyDefaultHeaders, hGet?, hEmpty, newHeaders_accept]
                | some a =>
                    simp [build_request] at hbuild
                    subst hbuild
                    simp [wireHeaders, applyDefaultHeaders, hGet?, hEmpty, hInsert]
            | some hs =>
                have hs_acc := hacc' hs rfl
                cases oacc with
                | none =>
                    simp [build_request] at hbuild
                    subst hbuild
                    simp [wireHeaders, applyDefaultHeaders, hGet?, hEmpty, hSetAll, hs_acc,
                      newHeaders_accept]
                | some a =>
                    simp [build_request] at hbuild
                    subst hbuild
                    simp [wireHeaders, applyDefaultHeaders, hGet?, hEmpty, hSetAll, hInsert]
        | true =>
            cases hm : make_body config
                (some { headers := ohs, params := opr, content_type := oct, accept := oacc,
                        deserialize_body := odb }) ser with
            | error e =>
                rw [build_request, hm] at hbuild
                cases ohs <;> cases oacc <;> simp at hbuild
            | ok p =>
                obtain ⟨b, ct⟩ := p
                rw [build_request, hm] at hbuild
                cases ohs with
                | none =>
                    cases oacc with
                    | none =>
                        simp at hbuild
                        subst hbuild
                        simp [wireHeaders, applyDefaultHeaders, hGet?, hEmpty, hInsert,
                          newHeaders_accept]
                    | some a =>
                        simp at hbuild
                        subst hbuild
                        simp [wireHeaders, applyDefaultHeaders, hGet?, hEmpty, hInsert]
                | some hs =>
                    have hs_acc := hacc' hs rfl
                    cases oacc with
                    | none =>
                        simp at hbuild
                        subst hbuild
                        simp [wireHeaders, applyDefaultHeaders, hGet?, hEmpty, hInsert,
                          hSetAll, hs_acc, newHeaders_accept]
                    | some a =>
                        simp at hbuild
                        subst hbuild
                        simp [wireHeaders, applyDefaultHeaders, hGet?, hEmpty, hInsert, hSetAll]

/-- Client configuration used by the C5 witness: client-level accept
`TextXml`, client-level content type `UrlEncoded`. -/
def cfgC5 : FetchConfig :=
  { timeout_ms := none, headers := none,
    accept := ContentType.TextXml, content_type := ContentType.UrlEncoded }

/-- Call options used by the C5 witness: a call-level accept override
`ApplicationXml` and no call-level content type. -/
def optsC5 : FetchOptions :=
  { headers := none, params := none, content_type := none,
    accept := some ContentType.ApplicationXml, deserialize_body := true }

/-- The request built at the C5 witness call. -/
def reqC5 : RequestBuilder :=
  { headers := hInsert hEmpty "accept" ContentType.ApplicationXml.toStr, body := none }

/-- C5 witness: the precedence theorem applied at a concrete bodyless call
with both client-level values configured and a call-level accept override. -/
theorem resolution_precedence_witness :
    resolveContentType (some cfgC5) (some optsC5) =
      (((some optsC5).bind (fun o => o.content_type)).getD
        (((some cfgC5).map (fun c => c.content_type)).getD ContentType.Json)) ∧
    hGet? (wireHeaders (some cfgC5) reqC5) "accept" =
      some ((((some optsC5).bind (fun o => o.accept)).getD
        (((some cfgC5).getD FetchConfig.mkDefault).accept)).toStr) :=
  resolution_precedence (some cfgC5) emptySer (some optsC5) false reqC5
    (fun hs h => by simp [optsC5] at h) rfl


theorem check_ok_of_status {resp : Response} (hok : ¬(400 ≤ resp.status ∧ resp.status ≤ 599)) :
    check_response_and_return_err resp = .ok resp := by
  have h1 : isClientError resp.status = false := by
    simp only [isClientError, Bool.and_eq_false_iff, decide_eq_false_iff_not]
    omega
  have h2 : isServerError resp.status = false := by
    simp only [isServerError, Bool.and_eq_false_iff, decide_eq_false_iff_not]
    omega
  simp [check_response_and_return_err, h1, h2]

theorem check_err_of_status {resp : Response} (hin : 400 ≤ resp.status ∧ resp.status ≤ 599) :
    check_response_and_return_err resp =
      .error (.NetworkErr (NetworkError.new resp)) := by
  have h1 : (isClientError resp.status || isServerError resp.status) = true := by
    simp only [isClientError, isServerError, Bool.or_eq_true, Bool.and_eq_true,
      decide_eq_true_eq]
    omega
  simp [check_response_and_return_err, h1]

/-- C3: a response whose status lies in 400–599 makes the call fail with a
`NetworkError` carrying the response's status, headers and (best-effort)
body — for every deserializer, so body deserialization is never attempted;
a response with any other status is passed through the classifier
unchanged. -/
theorem status_classification {T : Type} (de : Deserializers T) (resp : Response) (db : Bool) :
    (400 ≤ resp.status ∧ resp.status ≤ 599 →
      response_to_fetch_response de resp db =
        .error (.NetworkErr { status := resp.status, headers := resp.headers,
                              body := resp.bytesResult.toOption })) ∧
    (¬(400 ≤ resp.status ∧ resp.status ≤ 599) →
      check_response_and_return_err resp = .ok resp) := by
  constructor
  · intro hin
    rw [response_to_fetch_response, check_err_of_status hin]
    rfl
  · intro hok
    exact check_ok_of_status hok

/-- A 404 response with readable body bytes, for the C3 witness. -/
def resp404 : Response :=
  { status := 404, headers := hEmpty, bytesResult := .ok [104, 105], remote_addr := none }

/-- A 200 response with readable body bytes, shared by several witnesses. -/
def resp200 : Response :=
  { status := 200, headers := hEmpty, bytesResult := .ok [104, 105], remote_addr := none }

/-- C3 witness: the classification theorem applied at a 404 response and at
a 200 response. -/
theorem status_classification_witness :
    response_to_fetch_response unitDe resp404 true =
      .error (.NetworkErr { status := resp404.status, headers := resp404.headers,
                            body := resp404.bytesResult.toOption }) ∧
    check_response_and_return_err resp200 = .ok resp200 :=
  ⟨(status_classification unitDe resp404 true).1 (by decide),
   (status_classification unitDe resp200 true).2 (by decide)⟩

/-- C7: bytes that are not valid UTF-8, deserialized under either XML
content type, fail with the dedicated invalid-encoding
`DeserializationError` (the `Unknown` variant carrying the UTF-8 message,
which the spec names `InvalidEncoding`) — for every deserializer, so the
XML codec is never invoked and no codec behavior can propagate. -/
theorem xml_invalid_utf8 {T : Type} (de : Deserializers T) (rb : Bytes) (ct : ContentType)
    (hct : ct = ContentType.TextXml ∨ ct = ContentType.ApplicationXml)
    (hbad : utf8Decode? rb = none) :
    deserialize_response de rb ct =
      .error (.DeserializationErr
        (.Unknown "Response body does not contain valid Utf8")) := by
  rcases hct with h | h <;> subst h <;> simp [deserialize_response, hbad]

/-- C7 witness: the invalid-encoding theorem applied to the single byte
`0xFF` under `TextXml`. -/
theorem xml_invalid_utf8_witness :
    deserialize_response unitDe [255] ContentType.TextXml =
      .error (.DeserializationErr
        (.Unknown "Response body does not contain valid Utf8")) :=
  xml_invalid_utf8 unitDe [255] ContentType.TextXml (Or.inl rfl) (by decide)

/-- C10: when the status passes classification and `deserialize_body` is
false, the structured response has an absent decoded body while the raw
body (when the transport read succeeded), status, response headers and
remote address are populated from the transport response. -/
theorem skip_deserialize_frame {T : Type} (de : Deserializers T) (resp : Response)
    (hok : ¬(400 ≤ resp.status ∧ resp.status ≤ 599)) :
    response_to_fetch_response de resp false =
      .ok { body := none, raw_body := resp.bytesResult.toOption, status := resp.status,
            response_headers := resp.headers, remote_address := resp.remote_addr } := by
  rw [response_to_fetch_response, check_ok_of_status hok]
  cases hbs : resp.bytesResult <;> simp [hbs] <;> rfl

/-- C10 witness: the frame theorem applied at a concrete 200 response. -/
theorem skip_deserialize_frame_witness :
    response_to_fetch_response unitDe resp200 false =
      .ok { body := none, raw_body := resp200.bytesResult.toOption, status := resp200.status,
            response_headers := resp200.headers, remote_address := resp200.remote_addr } :=
  skip_deserialize_frame unitDe resp200 (by decide)


/-- C6: for a response that passes classification, the pipeline resolves
the deserialization content type from the declared `content-type` header
via the fallback-to-Json parse, and assumes `Json` when no header is
present; unrecognized header values degrade to `Json` rather than failing
the call. -/
theorem response_content_type_resolution {T : Type} (de : Deserializers T) (resp : Response)
    (rb : Bytes) (hok : ¬(400 ≤ resp.status ∧ resp.status ≤ 599))
    (hrb : resp.bytesResult = .ok rb) :
    (response_to_fetch_response de resp true =
      match deserialize_response de rb (responseContentType resp) with
      | .ok v => .ok { body := some v, raw_body := some rb, status := resp.status,
                       response_headers := resp.headers, remote_address := resp.remote_addr }
      | .error e => .error e) ∧
    (hGet? resp.headers "content-type" = none → responseContentType resp = ContentType.Json) ∧
    (∀ s, hGet? resp.headers "content-type" = some s → s ≠ "application/json" →
      s ≠ "text/xml" → s ≠ "application/xml" →
      s ≠ "application/x-www-form-urlencoded" →
      responseContentType resp = ContentType.Json) := by
  refine ⟨?_, ?_, ?_⟩
  · rw [response_to_fetch_response, check_ok_of_status hok]
    cases hct : hGet? resp.headers "content-type" with
    | none =>
        have hrc : responseContentType resp = ContentType.Json := by
          simp [responseContentType, hct]
        rw [hrc]
        cases hd : deserialize_response de rb ContentType.Json <;>
          simp [hrb, hct, hd, Except.toOption]
    | some s =>
        have hrc : responseContentType resp = ContentType.fromStr s := by
          simp [responseContentType, hct]
        rw [hrc]
        cases hd : deserialize_response de rb (ContentType.fromStr s) <;>
          simp [hrb, hct, hd, Except.toOption]
  · intro h
    simp [responseContentType, h]
  · intro s hs h1 h2 h3 h4
    simp [responseContentType, hs, ContentType.fromStr, h1, h2, h3, h4]

/-- A 200 response that declares the unrecognized content type `foo/bar`,
for the C6 witness. -/
def respC6 : Response :=
  { status := 200, headers := hInsert hEmpty "content-type" "foo/bar",
    bytesResult := .ok [104, 105], remote_addr := none }

/-- C6 witness: the resolution theorem applied at a 200 response declaring
`foo/bar` (which degrades to the Json assumption). -/
theorem response_content_type_resolution_witness :
    response_to_fetch_response unitDe respC6 true =
      match deserialize_response unitDe [104, 105] (responseContentType respC6) with
      | .ok v => .ok { body := some v, raw_body := some [104, 105], status := respC6.status,
                       response_headers := respC6.headers, remote_address := respC6.remote_addr }
      | .error e => .error e :=
  (response_content_type_resolution unitDe respC6 [104, 105] (by decide) rfl).1

/-- A 200 response whose body-bytes read fails, for the C9 counterexample
and witness. -/
def respReadFail : Response :=
  { status := 200, headers := hEmpty, bytesResult := .error "read failed",
    remote_addr := none }

/-- C9 counterexample: a failure to read the response body bytes from the
transport is not returned as an error — the call succeeds with an absent
raw body, so this pipeline failure is silently swallowed. -/
theorem body_read_failure_swallowed_cex :
    response_to_fetch_response unitDe respReadFail true =
      .ok { body := none, raw_body := none, status := 200,
            response_headers := hEmpty, remote_address := none } := by
  rfl

/-- C9 (amended): every failure detected in the response pipeline is
returned to the caller, with one exception: a failure to read the response
body bytes is swallowed (`.ok()` at lib.rs line 296) — the call then
succeeds with `raw_body = None`, `body = None`, and deserialization is
skipped; deserialization failures themselves do propagate as errors. -/
theorem failure_propagation_amended {T : Type} (de : Deserializers T) (resp : Response)
    (db : Bool) (hok : ¬(400 ≤ resp.status ∧ resp.status ≤ 599)) :
    (∀ msg, resp.bytesResult = .error msg →
      response_to_fetch_response de resp db =
        .ok { body := none, raw_body := none, status := resp.status,
              response_headers := resp.headers, remote_address := resp.remote_addr }) ∧
    (∀ rb e, resp.bytesResult = .ok rb →
      deserialize_response de rb (responseContentType resp) = .error e →
      response_to_fetch_response de resp true = .error e) := by
  constructor
  · intro msg hmsg
    rw [response_to_fetch_response, check_ok_of_status hok]
    simp [hmsg, Except.toOption]
  · intro rb e hrb hde
    rw [response_to_fetch_response, check_ok_of_status hok]
    cases hct : hGet? resp.headers "content-type" with
    | none =>
        have hrc : responseContentType resp = ContentType.Json := by
          simp [responseContentType, hct]
        rw [hrc] at hde
        simp [hrb, hct, hde, Except.toOption]
    | some s =>
        have hrc : responseContentType resp = ContentType.fromStr s := by
          simp [responseContentType, hct]
        rw [hrc] at hde
        simp [hrb, hct, hde, Except.toOption]

/-- C9 witness: the amended theorem applied at the concrete response whose
body read fails. -/
theorem failure_propagation_amended_witness :
    response_to_fetch_response unitDe respReadFail false =
      .ok { body := none, raw_body := none, status := respReadFail.status,
            response_headers := respReadFail.headers,
            remote_address := respReadFail.remote_addr } :=
  (failure_propagation_amended unitDe respReadFail false (by decide)).1 "read failed" rfl

end RustFetch
